import Mathlib

/-!
Verification of the blog content-rendering pipeline.

The page renderer is embedded from `src/templates/blog-post.js`
(`BlogPostTemplate` and its page query).  The Content Indexer operations
(excerpt derivation, markdown rendering, slug derivation, date formatting,
slug lookup) are implemented by the site framework and are modelled from
the specification; each such definition carries a doc comment saying so.
-/

namespace Blog

/-- Site-wide metadata: `site.siteMetadata` of the page query. -/
structure SiteMetadata where
  title : String

/-- The `site` node of the page query. -/
structure Site where
  siteMetadata : SiteMetadata

/-- The `fields` node of a markdown record; `slug` is what the page query
filters on (`markdownRemark(fields: ... slug ... eq ... )`). -/
structure Fields where
  slug : String

/-- The `frontmatter` node selected by the page query: `title`,
`date(formatString: "MMMM DD, YYYY")` (already formatted to its display
string), and the optional `description` (absent frontmatter key is `none`). -/
structure Frontmatter where
  title : String
  date : String
  description : Option String

/-- One content record as the page query returns it: `id`,
`excerpt(pruneLength: 160)`, `html`, `fields.slug` and the frontmatter. -/
structure MarkdownRemark where
  id : String
  fields : Fields
  excerpt : String
  html : String
  frontmatter : Frontmatter

/-- The `data` argument of `BlogPostTemplate`: the GraphQL query result.
`markdownRemark` is `none` when no record matches the queried slug
(GraphQL returns `null`). -/
structure QueryData where
  site : Site
  markdownRemark : Option MarkdownRemark

/-- Props handed to the `Layout` wrapper: `location` and the site title. -/
structure LayoutProps where
  location : String
  title : String

/-- Props handed to the `SEO` component: post title and description. -/
structure SeoProps where
  title : String
  description : String

/-- The article header: post title and the formatted date. -/
structure HeaderProps where
  title : String
  date : String

/-- The fully resolved page payload produced by the template. -/
structure Page where
  layout : LayoutProps
  seo : SeoProps
  header : HeaderProps
  bodyHtml : String

/-- A JavaScript runtime fault: reading a property of `null`
(`post.frontmatter` when `data.markdownRemark` is `null`). -/
inductive Fault where
  | nullDeref : String → Fault
deriving DecidableEq

/-- JavaScript `a || b` for an optional string `a`: `null`/`undefined` and
the empty string are falsy, so both fall through to `b`; any non-empty
string is truthy and wins.  Embeds `post.frontmatter.description || post.excerpt`. -/
def jsOr (a : Option String) (b : String) : String :=
  match a with
  | none => b
  | some s => if s = "" then b else s

/-- `BlogPostTemplate` of `src/templates/blog-post.js`: reads
`data.markdownRemark` (faulting on the unguarded `post.frontmatter` access
when it is `null`), passes `(location, siteTitle)` to `Layout`, the post
title and `description || excerpt` to `SEO`, the post title and formatted
date to the header, and embeds `post.html` via `dangerouslySetInnerHTML`. -/
def BlogPostTemplate (data : QueryData) (location : String) : Except Fault Page :=
  match data.markdownRemark with
  | none => Except.error (Fault.nullDeref "post.frontmatter")
  | some post =>
    Except.ok
      ⟨⟨location, data.site.siteMetadata.title⟩,
       ⟨post.frontmatter.title, jsOr post.frontmatter.description post.excerpt⟩,
       ⟨post.frontmatter.title, post.frontmatter.date⟩,
       post.html⟩

/-- A calendar date as carried by a document's frontmatter (`date` in ISO
form, e.g. 2021-02-06). -/
structure Date where
  year : Nat
  month : Nat
  day : Nat

/-- Modelled from the spec: a Content Store document — a markdown file with
a frontmatter block (`title`, `date`, optional `description`) and a
markdown body.  The Content Store itself is framework input, not code
under src/. -/
structure Document where
  path : String
  title : String
  date : Date
  description : Option String
  rawBody : String

/-- Is `c` a markdown markup character (stripped by excerpt derivation)? -/
def isMarkdownMarkup (c : Char) : Bool :=
  c == '#' || c == '*' || c == '_' || c == Char.ofNat 96 ||
  c == '>' || c == '[' || c == ']' || c == '!'

/-- Modelled from the spec: the markup-stripping pass of `deriveExcerpt`
("strips markdown markup"); the excerpt derivation itself is performed by
the framework's markdown transformer, not by code under src/. -/
def stripMarkdown (s : String) : String :=
  String.mk (s.toList.filter (fun c => !(isMarkdownMarkup c)))

/-- The word accumulated so far, flushed as a single-element list (words
are accumulated in reverse); an empty accumulator flushes to nothing. -/
def flushWord (acc : List Char) : List String :=
  if acc = [] then [] else [String.mk acc.reverse]

/-- Split a character list into its whitespace-separated words (runs of
whitespace collapse; no empty words are produced). -/
def splitWsAux : List Char → List Char → List String
  | [], acc => flushWord acc
  | c :: cs, acc =>
    if c.isWhitespace then flushWord acc ++ splitWsAux cs []
    else splitWsAux cs (c :: acc)

/-- Modelled from the spec: the whitespace-collapsing pass of
`deriveExcerpt` ("collapses whitespace") — the text's words, in order. -/
def wordsOf (s : String) : List String := splitWsAux s.toList []

/-- Join words with single spaces (the collapsed-whitespace text). -/
def joinWords : List String → String
  | [] => ""
  | [w] => w
  | w :: ws => w ++ " " ++ joinWords ws

/-- Append word `w` to the text built so far: no leading space on the
first word, a single space before every later one. -/
def glue (acc w : String) : String :=
  if acc = "" then w else acc ++ " " ++ w

/-- Take whole words greedily while the built text stays within `maxLen`
characters; the first word that would overflow stops the scan, so no word
is ever cut in the middle. -/
def truncateAtWordAux (maxLen : Nat) : List String → String → String
  | [], acc => acc
  | w :: ws, acc =>
    if (glue acc w).length ≤ maxLen then truncateAtWordAux maxLen ws (glue acc w)
    else acc

/-- Modelled from the spec: `deriveExcerpt(rawBody, maxLength)` of the
Content Indexer — "strips markdown markup, collapses whitespace, truncates
to maxLength characters without breaking mid-word".  In the repository it
is performed by the framework (`excerpt(pruneLength: 160)` in the page
query), not by code under src/. -/
def deriveExcerpt (rawBody : String) (maxLength : Nat) : String :=
  truncateAtWordAux maxLength (wordsOf (stripMarkdown rawBody)) ""

/-- Escape the HTML-significant characters of code-block text. -/
def escapeHtml (s : String) : String :=
  String.mk (s.toList.flatMap (fun c =>
    if c == '<' then "&lt;".toList
    else if c == '>' then "&gt;".toList
    else if c == '&' then "&amp;".toList
    else [c]))

/-- Split a character list at newlines. -/
def splitLinesAux : List Char → List Char → List String
  | [], acc => [String.mk acc.reverse]
  | c :: cs, acc =>
    if c == '\n' then String.mk acc.reverse :: splitLinesAux cs []
    else splitLinesAux cs (c :: acc)

/-- Render the lines of a markdown body; the second argument is `some lang`
inside a fenced code block tagged `lang`, `none` outside. -/
def renderHtmlAux : List String → Option String → String
  | [], none => ""
  | [], some _ => "</code></pre>\n"
  | line :: rest, some lang =>
    if line.startsWith "```" then "</code></pre>\n" ++ renderHtmlAux rest none
    else escapeHtml line ++ "\n" ++ renderHtmlAux rest (some lang)
  | line :: rest, none =>
    if line.startsWith "```" then
      "<pre><code class=\"language-" ++ line.drop 3 ++ "\">\n" ++
        renderHtmlAux rest (some (line.drop 3))
    else if line.startsWith "# " then
      "<h1>" ++ line.drop 2 ++ "</h1>\n" ++ renderHtmlAux rest none
    else if line = "" then renderHtmlAux rest none
    else "<p>" ++ line ++ "</p>\n" ++ renderHtmlAux rest none

/-- Modelled from the spec: `renderHtml(rawBody)` of the Content Indexer —
"converts markdown to HTML, including fenced code blocks (language-tagged
...) rendered as ... pre/code blocks".  In the repository this is done by
the framework's markdown transformer, not by code under src/. -/
def renderHtml (rawBody : String) : String :=
  renderHtmlAux (splitLinesAux rawBody.toList []) none

/-- The characters of a path after its last slash, in order. -/
def basenameAux : List Char → List Char → List Char
  | [], acc => acc.reverse
  | '/' :: cs, _ => basenameAux cs []
  | c :: cs, acc => basenameAux cs (c :: acc)

/-- The characters of a file name before its first dot (extension dropped). -/
def takeUntilDot : List Char → List Char
  | [] => []
  | '.' :: _ => []
  | c :: cs => c :: takeUntilDot cs

/-- Modelled from the spec: slug derivation — "derived deterministically
from file path/title"; the framework derives it from the file path at
index time, outside src/. -/
def mkSlug (path : String) : String :=
  "/" ++ String.mk (takeUntilDot (basenameAux path.toList [])) ++ "/"

/-- The digit character of `n`'s final decimal digit. -/
def digitChar (n : Nat) : Char := Char.ofNat (48 + n % 10)

/-- Zero-padded two-digit decimal rendering ("DD"). -/
def pad2 (n : Nat) : String := String.mk [digitChar (n / 10), digitChar n]

/-- Zero-padded four-digit decimal rendering ("YYYY"). -/
def pad4 (n : Nat) : String :=
  String.mk [digitChar (n / 1000), digitChar (n / 100), digitChar (n / 10), digitChar n]

/-- Full English month name ("MMMM"); empty for an out-of-range month. -/
def monthName : Nat → String
  | 1 => "January"
  | 2 => "February"
  | 3 => "March"
  | 4 => "April"
  | 5 => "May"
  | 6 => "June"
  | 7 => "July"
  | 8 => "August"
  | 9 => "September"
  | 10 => "October"
  | 11 => "November"
  | 12 => "December"
  | _ => ""

/-- Modelled from the spec: the display formatting of `date` with pattern
"MMMM DD, YYYY" (full month name, zero-padded day, four-digit year),
performed by the framework for `date(formatString: "MMMM DD, YYYY")` in
the page query, outside src/. -/
def formatDate (d : Date) : String :=
  monthName d.month ++ " " ++ pad2 d.day ++ ", " ++ pad4 d.year

/-- Modelled from the spec: the Content Indexer's per-document work —
parse the frontmatter and derive `slug`, `excerpt` (160-character prune),
`html` and the display date from the document.  Performed by the framework
at build time, outside src/. -/
def indexDocument (doc : Document) : MarkdownRemark :=
  ⟨doc.path,
   ⟨mkSlug doc.path⟩,
   deriveExcerpt doc.rawBody 160,
   renderHtml doc.rawBody,
   ⟨doc.title, formatDate doc.date, doc.description⟩⟩

/-- Modelled from the spec: `indexAll()` — index every document of the
Content Store into the record set. -/
def indexAll (docs : List Document) : List MarkdownRemark :=
  docs.map indexDocument

/-- Modelled from the spec: `getBySlug(slug)` — "returns the matching
record or a NotFound signal" (`none`); the repository realises it as the
GraphQL lookup `markdownRemark(fields: ... slug ... eq ... )`, outside src/. -/
def getBySlug (records : List MarkdownRemark) (slug : String) : Option MarkdownRemark :=
  records.find? (fun r => r.fields.slug == slug)

/-- A sample Content Store document (the cookie-jar post of the repository,
body abridged). -/
def sampleDoc : Document :=
  ⟨"content/blog/cookie-jar.md",
   "Manage HTTP Cookie in Go with Cookie Jar",
   ⟨2021, 2, 6⟩,
   some "Manage HTTP Cookie in Go with Cookie Jar",
   "Go standard HTTP library provides an interface to manage the storage of cookies in HTTP requests."⟩

/-- A second sample document with a different path and title but the same
raw body as `sampleDoc`. -/
def sampleDoc2 : Document :=
  ⟨"content/blog/reuse-http-connection.md",
   "How to Reuse HTTP Connection in Go",
   ⟨2021, 4, 7⟩,
   none,
   "Go standard HTTP library provides an interface to manage the storage of cookies in HTTP requests."⟩

/-- The sample Content Store: two documents with distinct paths. -/
def sampleDocs : List Document := [sampleDoc, sampleDoc2]

/-- A sample indexed record, given directly as a literal. -/
def sampleRecord : MarkdownRemark :=
  ⟨"1",
   ⟨"/cookie-jar/"⟩,
   "Go standard HTTP library provides an interface to manage the storage of cookies.",
   "<p>Go standard HTTP library provides an interface.</p>\n",
   ⟨"Manage HTTP Cookie in Go with Cookie Jar", "February 06, 2021",
    some "Manage HTTP Cookie in Go with Cookie Jar"⟩⟩

/-- A sample query result carrying `sampleRecord`. -/
def sampleQuery : QueryData :=
  ⟨⟨⟨"Husni Munaya"⟩⟩, some sampleRecord⟩

theorem monthName_ne_empty (m : Nat) (h1 : 1 ≤ m) (h2 : m ≤ 12) : monthName m ≠ "" := by
  interval_cases m <;> decide

theorem string_mk_ne_empty (l : List Char) (h : l ≠ []) : String.mk l ≠ "" := by
  intro he
  apply h
  simpa using congrArg String.data he

theorem flushWord_ne_empty (acc : List Char) : ∀ w ∈ flushWord acc, w ≠ "" := by
  intro w hw
  unfold flushWord at hw
  split at hw
  · simp at hw
  · rename_i hne
    simp only [List.mem_singleton] at hw
    subst hw
    exact string_mk_ne_empty _ (by simpa using hne)

theorem splitWsAux_ne_empty (cs : List Char) :
    ∀ acc : List Char, ∀ w ∈ splitWsAux cs acc, w ≠ "" := by
  induction cs with
  | nil =>
    intro acc w hw
    rw [splitWsAux] at hw
    exact flushWord_ne_empty acc w hw
  | cons c cs ih =>
    intro acc w hw
    rw [splitWsAux] at hw
    split at hw
    · rcases List.mem_append.mp hw with h | h
      · exact flushWord_ne_empty _ w h
      · exact ih [] w h
    · exact ih _ w hw

theorem wordsOf_ne_empty (s : String) : ∀ w ∈ wordsOf s, w ≠ "" :=
  splitWsAux_ne_empty s.toList []

theorem truncateAtWordAux_length_le (maxLen : Nat) (ws : List String) :
    ∀ acc : String, acc.length ≤ maxLen → (truncateAtWordAux maxLen ws acc).length ≤ maxLen := by
  induction ws with
  | nil =>
    intro acc h
    simpa [truncateAtWordAux] using h
  | cons w ws ih =>
    intro acc h
    rw [truncateAtWordAux]
    split
    · exact ih _ (by assumption)
    · exact h

theorem joinWords_cons_cons (p q : String) (qs : List String) :
    joinWords (p :: q :: qs) = p ++ " " ++ joinWords (q :: qs) := rfl

theorem joinWords_cons_ne_empty (p : String) (ps : List String) (hp : p ≠ "") :
    joinWords (p :: ps) ≠ "" := by
  cases ps with
  | nil => simpa [joinWords] using hp
  | cons q qs =>
    intro h
    have hl := congrArg String.length h
    rw [joinWords_cons_cons, String.length_append, String.length_append] at hl
    have h1 : (" ").length = 1 := rfl
    have h2 : ("" : String).length = 0 := rfl
    rw [h1, h2] at hl
    omega

theorem joinWords_append_one (pre : List String) (w : String) (h : pre ≠ []) :
    joinWords (pre ++ [w]) = joinWords pre ++ " " ++ w := by
  induction pre with
  | nil => exact absurd rfl h
  | cons p ps ih =>
    cases ps with
    | nil => simp [joinWords]
    | cons q qs =>
      calc joinWords ((p :: q :: qs) ++ [w])
          = p ++ " " ++ joinWords ((q :: qs) ++ [w]) := joinWords_cons_cons p q (qs ++ [w])
        _ = p ++ " " ++ (joinWords (q :: qs) ++ " " ++ w) := by rw [ih (by simp)]
        _ = joinWords (p :: q :: qs) ++ " " ++ w := by
            rw [joinWords_cons_cons p q qs]
            simp [String.append_assoc]

theorem glue_joinWords (pre : List String) (w : String) (hpre : ∀ u ∈ pre, u ≠ "") :
    glue (joinWords pre) w = joinWords (pre ++ [w]) := by
  cases pre with
  | nil => simp [glue, joinWords]
  | cons p ps =>
    have h1 : joinWords (p :: ps) ≠ "" :=
      joinWords_cons_ne_empty p ps (hpre p (List.mem_cons_self p ps))
    rw [glue, if_neg h1]
    exact (joinWords_append_one (p :: ps) w (by simp)).symm

theorem truncateAtWordAux_take (maxLen : Nat) :
    ∀ ws pre : List String, (∀ u ∈ pre, u ≠ "") → (∀ u ∈ ws, u ≠ "") →
      ∃ n, truncateAtWordAux maxLen ws (joinWords pre) = joinWords (pre ++ List.take n ws) := by
  intro ws
  induction ws with
  | nil =>
    intro pre _ _
    exact ⟨0, by simp [truncateAtWordAux]⟩
  | cons w ws ih =>
    intro pre hpre hws
    have hglue : glue (joinWords pre) w = joinWords (pre ++ [w]) := glue_joinWords pre w hpre
    rw [truncateAtWordAux]
    by_cases hc : (glue (joinWords pre) w).length ≤ maxLen
    · rw [if_pos hc, hglue]
      have hpre2 : ∀ u ∈ pre ++ [w], u ≠ "" := by
        intro u hu
        rcases List.mem_append.mp hu with h | h
        · exact hpre u h
        · rw [List.mem_singleton] at h
          subst h
          exact hws u (List.mem_cons_self u ws)
      obtain ⟨n, hn⟩ := ih (pre ++ [w]) hpre2 (fun u hu => hws u (List.mem_cons_of_mem _ hu))
      refine ⟨n + 1, ?_⟩
      rw [hn, List.take_succ_cons, List.append_assoc, List.singleton_append]
    · rw [if_neg hc]
      exact ⟨0, by simp⟩

/-- C2: `deriveExcerpt(rawBody, 160)` is at most 160 characters long and
never splits a word at the truncation boundary: its output is the
space-join of an initial run of whole words of the cleaned text (a
trailing word that would overflow is dropped, not cut inside). -/
theorem deriveExcerpt_length_and_word_boundary (rawBody : String) :
    (deriveExcerpt rawBody 160).length ≤ 160 ∧
    ∃ n, deriveExcerpt rawBody 160 =
      joinWords (List.take n (wordsOf (stripMarkdown rawBody))) := by
  constructor
  · exact truncateAtWordAux_length_le 160 _ "" (by simp)
  · obtain ⟨n, hn⟩ :=
      truncateAtWordAux_take 160 (wordsOf (stripMarkdown rawBody)) []
        (by simp) (wordsOf_ne_empty _)
    exact ⟨n, by simpa using hn⟩

theorem find_self_of_nodup_slugs (l : List MarkdownRemark) (r : MarkdownRemark)
    (h : (l.map (fun x => x.fields.slug)).Nodup) (hr : r ∈ l) :
    l.find? (fun x => x.fields.slug == r.fields.slug) = some r := by
  induction l with
  | nil => cases hr
  | cons a tl ih =>
    rw [List.map_cons, List.nodup_cons] at h
    rcases List.mem_cons.mp hr with rfl | hmem
    · exact List.find?_cons_of_pos _ (by simp)
    · have hne : (a.fields.slug == r.fields.slug) = false := by
        apply beq_eq_false_iff_ne.mpr
        intro he
        exact h.1 (he ▸ List.mem_map_of_mem (fun x => x.fields.slug) hmem)
      rw [List.find?_cons_of_neg _ (by simp [hne]), ih h.2 hmem]

/-- C5: indexing gives records whose slugs are pairwise distinct (given
documents whose derived slugs are distinct, as the spec's uniqueness
invariant demands), and slug lookup round-trips: `getBySlug` at any
generated record's slug returns that very record. -/
theorem slug_unique_and_lookup_roundtrip (docs : List Document)
    (h : (docs.map (fun d => mkSlug d.path)).Nodup) :
    ((indexAll docs).map (fun r => r.fields.slug)).Nodup ∧
    ∀ r ∈ indexAll docs, getBySlug (indexAll docs) r.fields.slug = some r := by
  have hkeys : (indexAll docs).map (fun r => r.fields.slug) =
      docs.map (fun d => mkSlug d.path) := by
    simp [indexAll, indexDocument]
  have hnd : ((indexAll docs).map (fun r => r.fields.slug)).Nodup := by
    rw [hkeys]
    exact h
  exact ⟨hnd, fun r hr => find_self_of_nodup_slugs (indexAll docs) r hnd hr⟩

theorem slug_roundtrip_witness :
    ((indexAll sampleDocs).map (fun r => r.fields.slug)).Nodup ∧
    ∀ r ∈ indexAll sampleDocs, getBySlug (indexAll sampleDocs) r.fields.slug = some r :=
  slug_unique_and_lookup_roundtrip sampleDocs (by decide)

/-- C1: the SEO description emitted by `BlogPostTemplate` for an indexed
document equals the document's description verbatim when that description
is present and non-empty, and equals `deriveExcerpt(rawBody, 160)` when
the description is absent or present-but-empty. -/
theorem seo_description_fallback (doc : Document) (site : Site) (loc : String) :
    ∃ p, BlogPostTemplate ⟨site, some (indexDocument doc)⟩ loc = Except.ok p ∧
      (∀ s, doc.description = some s → s ≠ "" → p.seo.description = s) ∧
      ((doc.description = none ∨ doc.description = some "") →
        p.seo.description = deriveExcerpt doc.rawBody 160) := by
  refine ⟨_, rfl, ?_, ?_⟩
  · intro s hs hne
    simp [BlogPostTemplate, indexDocument, jsOr, hs, hne]
  · rintro (h | h) <;> simp [BlogPostTemplate, indexDocument, jsOr, h]

/-- C3: a slug with no matching record makes `getBySlug` yield the
NotFound signal (`none`), and rendering that query result is build-fatal:
`BlogPostTemplate` produces a fault, not a page. -/
theorem getBySlug_miss_build_fatal (records : List MarkdownRemark) (slug : String)
    (site : Site) (loc : String) (h : ∀ r ∈ records, r.fields.slug ≠ slug) :
    getBySlug records slug = none ∧
    BlogPostTemplate ⟨site, getBySlug records slug⟩ loc =
      Except.error (Fault.nullDeref "post.frontmatter") := by
  have hn : getBySlug records slug = none := by
    apply List.find?_eq_none.mpr
    intro r hr
    simpa using h r hr
  refine ⟨hn, ?_⟩
  rw [hn]
  rfl

theorem getBySlug_miss_witness :
    getBySlug [sampleRecord] "/missing/" = none ∧
    BlogPostTemplate ⟨⟨⟨"Husni Munaya"⟩⟩, getBySlug [sampleRecord] "/missing/"⟩ "/missing/" =
      Except.error (Fault.nullDeref "post.frontmatter") :=
  getBySlug_miss_build_fatal [sampleRecord] "/missing/" ⟨⟨"Husni Munaya"⟩⟩ "/missing/"
    (by decide)

/-- C4: the `html` and `excerpt` fields of an indexed record are pure
derivations of `rawBody` alone: any two documents with the same raw body
index to the same `html` and the same `excerpt`, whatever their other
fields — there is no hidden state influencing the derivation, and
re-deriving is idempotent. -/
theorem derivations_pure_of_rawBody (d1 d2 : Document) (h : d1.rawBody = d2.rawBody) :
    (indexDocument d1).html = (indexDocument d2).html ∧
    (indexDocument d1).excerpt = (indexDocument d2).excerpt := by
  constructor <;> simp [indexDocument, h]

theorem derivations_pure_witness :
    (indexDocument sampleDoc).html = (indexDocument sampleDoc2).html ∧
    (indexDocument sampleDoc).excerpt = (indexDocument sampleDoc2).excerpt :=
  derivations_pure_of_rawBody sampleDoc sampleDoc2 rfl

/-- C6: the date in the rendered page header is the record's date under
the display pattern "MMMM DD, YYYY": full (non-empty) month name, a
zero-padded two-character day, a comma, and a four-character year. -/
theorem header_date_display_format (doc : Document) (site : Site) (loc : String)
    (h1 : 1 ≤ doc.date.month) (h2 : doc.date.month ≤ 12) :
    ∃ p, BlogPostTemplate ⟨site, some (indexDocument doc)⟩ loc = Except.ok p ∧
      p.header.date =
        monthName doc.date.month ++ " " ++ pad2 doc.date.day ++ ", " ++ pad4 doc.date.year ∧
      monthName doc.date.month ≠ "" ∧
      (pad2 doc.date.day).length = 2 ∧ (pad4 doc.date.year).length = 4 :=
  ⟨_, rfl, rfl, monthName_ne_empty _ h1 h2, rfl, rfl⟩

theorem header_date_witness :
    ∃ p, BlogPostTemplate ⟨⟨⟨"Husni Munaya"⟩⟩, some (indexDocument sampleDoc)⟩ "/cookie-jar/" =
        Except.ok p ∧
      p.header.date =
        monthName sampleDoc.date.month ++ " " ++ pad2 sampleDoc.date.day ++ ", " ++
          pad4 sampleDoc.date.year ∧
      monthName sampleDoc.date.month ≠ "" ∧
      (pad2 sampleDoc.date.day).length = 2 ∧ (pad4 sampleDoc.date.year).length = 4 :=
  header_date_display_format sampleDoc ⟨⟨"Husni Munaya"⟩⟩ "/cookie-jar/" (by decide) (by decide)

/-- C7: the template embeds the record's pre-rendered `html` verbatim —
the emitted `bodyHtml` is exactly `post.html`, with no escaping,
sanitization or other mutation by the renderer. -/
theorem bodyHtml_embedded_verbatim (post : MarkdownRemark) (site : Site) (loc : String) :
    ∃ p, BlogPostTemplate ⟨site, some post⟩ loc = Except.ok p ∧ p.bodyHtml = post.html :=
  ⟨_, rfl, rfl⟩

/-- C8: `BlogPostTemplate` evaluates without fault exactly when the slug
query result (`data.markdownRemark`) is present; when it is absent the
unguarded `post.frontmatter` access faults instead of returning a page or
an explicit NotFound value. -/
theorem template_requires_present_record (d : QueryData) (loc : String) :
    ((∃ p, BlogPostTemplate d loc = Except.ok p) ↔ d.markdownRemark.isSome = true) ∧
    (d.markdownRemark = none →
      BlogPostTemplate d loc = Except.error (Fault.nullDeref "post.frontmatter")) := by
  constructor
  · cases h : d.markdownRemark with
    | none => simp [BlogPostTemplate, h]
    | some post => simp [BlogPostTemplate, h]
  · intro h
    simp [BlogPostTemplate, h]

/-- C9: the two titles are never interchanged — the SEO title and the
page-header title are both the record's own frontmatter title, while the
site-wide title is what goes to the Layout wrapper. -/
theorem titles_never_interchanged (post : MarkdownRemark) (site : Site) (loc : String) :
    ∃ p, BlogPostTemplate ⟨site, some post⟩ loc = Except.ok p ∧
      p.seo.title = post.frontmatter.title ∧
      p.header.title = post.frontmatter.title ∧
      p.layout.title = site.siteMetadata.title :=
  ⟨_, rfl, rfl, rfl, rfl⟩

/-- C10: `BlogPostTemplate` is a pure function of `(data, location)` —
two invocations with equal inputs produce identical page payloads. -/
theorem template_pure_function (d1 d2 : QueryData) (l1 l2 : String)
    (hd : d1 = d2) (hl : l1 = l2) :
    BlogPostTemplate d1 l1 = BlogPostTemplate d2 l2 := by
  subst hd hl
  rfl

theorem template_pure_witness :
    BlogPostTemplate sampleQuery "/cookie-jar/" = BlogPostTemplate sampleQuery "/cookie-jar/" :=
  template_pure_function sampleQuery sampleQuery "/cookie-jar/" "/cookie-jar/" rfl rfl

end Blog
